import Mathlib

/-!
Shallow embedding of the `node-rsync` command builder (`index.js`, the current
source variant) together with proofs about its argument assembly, escaping,
option store, pattern handling, output-handler registration and execution
settling logic.  JS strings are modelled as `List Char`, JS runtime values as
the inductive `JsVal`, and the builder instance as the record `RsyncState`.
-/

namespace NodeRsync

/-- JS runtime values that can reach the builder's option map, handler slots
and promise results.  JS numbers are IEEE doubles; the only numbers relevant
here are small integers (exit codes, option values), modelled as `Int`.
Functions are opaque and identified by a tag. -/
inductive JsVal where
  | undefined
  | null
  | bool (b : Bool)
  | num (n : Int)
  | str (s : List Char)
  | arr (elems : List JsVal)
  | fn (id : Nat)

/-- JS truthiness: `undefined`, `null`, `false`, `0` and the empty string are
falsy; everything else (including any array and any function) is truthy. -/
def truthy : JsVal → Bool
  | .undefined => false
  | .null => false
  | .bool b => b
  | .num n => n != 0
  | .str s => !s.isEmpty
  | .arr _ => true
  | .fn _ => true

/-- `typeof value === 'undefined'`. -/
def isUndefined : JsVal → Bool
  | .undefined => true
  | _ => false

/-- `typeof value === 'function'`. -/
def isFunction : JsVal → Bool
  | .fn _ => true
  | _ => false

/-- `a || b` on JS values. -/
def jsOr (a b : JsVal) : JsVal := if truthy a then a else b

mutual
/-- `String(value)` for the values above.  Arrays stringify as their elements
joined by commas with `undefined`/`null` elements becoming empty.  `String`
of a function yields its source text, which has no counterpart here; the
placeholder is never reached by any theorem below. -/
def jsToString : JsVal → List Char
  | .undefined => "undefined".data
  | .null => "null".data
  | .bool true => "true".data
  | .bool false => "false".data
  | .num n => (toString n).data
  | .str s => s
  | .arr l => jsArrToString l
  | .fn _ => "function".data

def jsArrToString : List JsVal → List Char
  | [] => []
  | x :: xs =>
    (match x with
     | .undefined => []
     | .null => []
     | v => jsToString v)
    ++ (if xs.isEmpty then [] else ',' :: jsArrToString xs)
end

/-- The character class of the test regex in `escapeShellArg`:
double quote, single quote, backtick, backslash, dollar and space. -/
def isShellSpecial (c : Char) : Bool :=
  c == '"' || c == '\'' || c == '`' || c == '\\' || c == '$' || c == ' '

/-- The character class of the replace regex in `escapeShellArg`: the same
characters except the space. -/
def isEscapedChar (c : Char) : Bool :=
  c == '"' || c == '\'' || c == '`' || c == '\\' || c == '$'

/-- `escapeShellArg`: return the argument unchanged when the test regex does
not match; otherwise wrap it in double quotes, prefixing every occurrence of
a replaced character with a backslash (the global replace). -/
def escapeShellArg (arg : List Char) : List Char :=
  if !(arg.any isShellSpecial) then
    arg
  else
    '"' :: (arg.flatMap fun c => if isEscapedChar c then ['\\', c] else [c]) ++ ['"']

/-- `stripLeadingDashes`: the regex `^[-]*` removes the maximal run of
leading dash characters (the function is only ever applied to strings
here). -/
def stripLeadingDashes (value : List Char) : List Char :=
  value.dropWhile (· == '-')

/-- An entry of the ordered `_patterns` list.  Only `include`/`exclude` push
entries, so the stored action is the character `'+'` or `'-'`. -/
structure Pattern where
  action : Char
  pattern : List Char
  deriving DecidableEq

/-- The two output-handler slots of `_outputHandlers`. -/
structure OutputHandlers where
  stdout : JsVal
  stderr : JsVal

/-- The builder's configuration: executable path, source list, destination,
ordered pattern list, insertion-ordered options map and the handler pair.
The options map is an insertion-ordered association list; option names here
are non-index strings, for which JS object key iteration is insertion order
with re-assignment keeping the original position. -/
structure RsyncState where
  executable : List Char
  sources : List (List Char)
  destination : List Char
  patterns : List Pattern
  options : List (List Char × JsVal)
  handlers : OutputHandlers

/-- The default no-op output handler installed by the constructor. -/
def noopFn : JsVal := .fn 0

/-- A fresh `Rsync` instance with the given executable: empty sources,
empty destination, no patterns, no options, no-op handlers. -/
def mkRsync (executable : List Char) : RsyncState :=
  { executable := executable
    sources := []
    destination := []
    patterns := []
    options := []
    handlers := { stdout := noopFn, stderr := noopFn } }

/-- Assignment into the options object: re-assigning an existing key keeps
its position, a fresh key is appended at the end. -/
def setAssoc : List (List Char × JsVal) → List Char → JsVal → List (List Char × JsVal)
  | [], k, v => [(k, v)]
  | (k', v') :: rest, k, v =>
    if k' = k then (k, v) :: rest else (k', v') :: setAssoc rest k v

/-- Property lookup on the options object. -/
def lookupAssoc : List (List Char × JsVal) → List Char → Option JsVal
  | [], _ => none
  | (k', v') :: rest, k => if k' = k then some v' else lookupAssoc rest k

/-- `delete` of a property: the entry disappears, the order of the other
entries is unchanged. -/
def removeAssoc : List (List Char × JsVal) → List Char → List (List Char × JsVal)
  | [], _ => []
  | (k', v') :: rest, k => if k' = k then rest else (k', v') :: removeAssoc rest k

/-- `set(option, value)`: the `_options` proxy strips leading dashes from the
key on every write; a call without a value stores `undefined`. -/
def rsSet (st : RsyncState) (option : List Char) (value : JsVal) : RsyncState :=
  { st with options := setAssoc st.options (stripLeadingDashes option) value }

/-- `unset(option)`: guarded by the truthiness of the raw (unstripped) name;
the proxy strips leading dashes before the `delete`. -/
def rsUnset (st : RsyncState) (option : List Char) : RsyncState :=
  if !option.isEmpty then
    { st with options := removeAssoc st.options (stripLeadingDashes option) }
  else st

/-- `isSet(option)`: dash-stripped membership test (the proxy's `has`). -/
def rsIsSet (st : RsyncState) (option : List Char) : Bool :=
  (lookupAssoc st.options (stripLeadingDashes option)).isSome

/-- `option(name)`: dash-stripped property read; a missing property reads as
`undefined`, exactly like a present property whose stored value is
`undefined`. -/
def rsOption (st : RsyncState) (name : List Char) : JsVal :=
  (lookupAssoc st.options (stripLeadingDashes name)).getD .undefined

/-- Argument shapes accepted by `setFlags`/`unsetFlags`: strings and
arbitrarily nested arrays of them. -/
inductive FlagArg where
  | str (s : List Char)
  | list (elems : List FlagArg)

mutual
/-- `parseFlags`: strings split into their characters, arrays are flattened
recursively; the result is the flat list of one-character flag names in
argument order. -/
def parseFlags : FlagArg → List (List Char)
  | .str s => s.map fun c => [c]
  | .list l => parseFlagsList l

def parseFlagsList : List FlagArg → List (List Char)
  | [] => []
  | a :: rest => parseFlags a ++ parseFlagsList rest
end

/-- `setFlags(...flags)`: set every parsed flag, without a value, in order. -/
def setFlags (st : RsyncState) (flags : List FlagArg) : RsyncState :=
  (parseFlagsList flags).foldl (fun s f => rsSet s f .undefined) st

/-- `include(pattern)` for a single string: append an entry with action `'+'`. -/
def rsInclude (st : RsyncState) (pattern : List Char) : RsyncState :=
  { st with patterns := st.patterns ++ [{ action := '+', pattern := pattern }] }

/-- `exclude(pattern)` for a single string: append an entry with action `'-'`. -/
def rsExclude (st : RsyncState) (pattern : List Char) : RsyncState :=
  { st with patterns := st.patterns ++ [{ action := '-', pattern := pattern }] }

/-- Argument shapes accepted by `patterns`: sign-prefixed strings, explicit
action/pattern objects, and arbitrarily nested arrays of these. -/
inductive PatternArg where
  | str (s : List Char)
  | obj (action : List Char) (pattern : List Char)
  | list (elems : List PatternArg)

mutual
/-- One iteration of the `patterns` loop: for a string, the action is
`charAt(0)` (a one-character string, or empty for the empty string) and the
stored text is `substring(1)`; for an object the two fields are used; an
action equal to `'-'` excludes, anything else includes. -/
def patternsOne (st : RsyncState) : PatternArg → RsyncState
  | .str s =>
    if s.take 1 = ['-'] then rsExclude st (s.drop 1) else rsInclude st (s.drop 1)
  | .obj action pattern =>
    if action = ['-'] then rsExclude st pattern else rsInclude st pattern
  | .list l => patternsList st l

def patternsList (st : RsyncState) : List PatternArg → RsyncState
  | [] => st
  | a :: rest => patternsList (patternsOne st a) rest
end

/-- The `source` list accessor (`createListAccessor`): append a string value
unless it is already present. -/
def rsSource (st : RsyncState) (value : List Char) : RsyncState :=
  if st.sources.contains value then st
  else { st with sources := st.sources ++ [value] }

/-- The `destination` value accessor: last write wins. -/
def rsDestination (st : RsyncState) (value : List Char) : RsyncState :=
  { st with destination := value }

/-- `buildOption(name, value, escapeArg)`: a one-character name gets the
single-dash form with a space glue, any other name the double-dash form with
an equals glue; the value is appended, escaped, only when both the name and
the value are truthy.  At both call sites in `args` the effective escape
function is `escapeShellArg` (passed explicitly for options, the default for
patterns), so it is fixed here. -/
def buildOption (name : List Char) (value : JsVal) : List Char :=
  let single := name.length == 1
  let pfx : List Char := if single then ['-'] else ['-', '-']
  let glue : List Char := if single then [' '] else ['=']
  let opt := pfx ++ name
  if !name.isEmpty && truthy value then
    opt ++ glue ++ escapeShellArg (jsToString value)
  else
    opt

/-- Modelled from the spec: the external path-normalization step (the
`unixify` dependency, absent from the sources): a leading drive-letter
prefix — letters followed by a colon — is removed and every backslash
becomes a forward slash, so a Windows-style path such as `C:\a\b` is
rewritten to `/a/b`, while plain POSIX paths pass through unchanged. -/
def unixify (p : List Char) : List Char :=
  let letters := p.takeWhile Char.isAlpha
  let stripped :=
    if !letters.isEmpty && (p.drop letters.length).take 1 = [':'] then
      p.drop (letters.length + 1)
    else p
  stripped.map fun c => if c = '\\' then '/' else c

/-- The short/long partition loop of `args`: a key of length one whose value
is `undefined` joins the short group; every other entry renders into the
long group — an array value one token per element, anything else a single
token. -/
def splitOptions : List (List Char × JsVal) → List (List Char) × List (List Char)
  | [] => ([], [])
  | (key, value) :: rest =>
    let s := splitOptions rest
    if key.length == 1 && isUndefined value then
      (key :: s.1, s.2)
    else
      match value with
      | .arr l => (s.1, (l.map fun v => buildOption key v) ++ s.2)
      | _ => (s.1, buildOption key value :: s.2)

/-- The filter token of a stored pattern entry:
`buildOption(action === '-' ? 'exclude' : 'include', pattern)`. -/
def patternToken (p : Pattern) : List Char :=
  buildOption (if p.action = '-' then "exclude".data else "include".data) (.str p.pattern)

/-- `args()`: the cluster of short flags (when any), the long tokens, the
filter tokens in pattern order, the normalized sources, the normalized
destination (when truthy), concatenated in that order. -/
def argsOf (st : RsyncState) : List (List Char) :=
  let s := splitOptions st.options
  let args : List (List Char) := []
  let args := if !s.1.isEmpty then args ++ ['-' :: s.1.flatten] else args
  let args := if !s.2.isEmpty then args ++ s.2 else args
  let args := args ++ st.patterns.map patternToken
  let args := if st.sources.length != 0 then args ++ st.sources.map unixify else args
  let args := if !st.destination.isEmpty then args ++ [unixify st.destination] else args
  args

/-- `command()`: the executable, a space, and the space-joined argument
vector. -/
def command (st : RsyncState) : List Char :=
  st.executable ++ [' '] ++ List.intercalate [' '] (argsOf st)

/-- The two-argument call of `Rsync.prototype.output` (the single
array-argument form destructures first and is not used by `execute`): each
slot is overwritten only when the corresponding argument is a function, and
the `stderr` slot is assigned the `stdout` parameter — exactly as the source
reads. -/
def output (st : RsyncState) (stdout stderr : JsVal) : RsyncState :=
  let h := st.handlers
  let h := if isFunction stdout then { h with stdout := stdout } else h
  let h := if isFunction stderr then { h with stderr := stdout } else h
  { st with handlers := h }

/-- The synchronous handler re-registration `execute` performs before
spawning:
`this.output(opts.stdoutHandler || current stdout, opts.stderrHandler || current stderr)`. -/
def executeRegister (st : RsyncState) (stdoutHandler stderrHandler : JsVal) : RsyncState :=
  output st (jsOr stdoutHandler st.handlers.stdout) (jsOr stderrHandler st.handlers.stderr)

/-- Chunks arriving on the spawned process's stdout are each passed to the
handler wired by `cmdProc.stdout.on('data', this._outputHandlers.stdout)`. -/
def stdoutDeliveries (st : RsyncState) (chunks : List (List Char)) :
    List (JsVal × List Char) :=
  chunks.map fun c => (st.handlers.stdout, c)

/-- Chunks arriving on the spawned process's stderr are each passed to the
handler wired by `cmdProc.stderr.on('data', this._outputHandlers.stderr)`. -/
def stderrDeliveries (st : RsyncState) (chunks : List (List Char)) :
    List (JsVal × List Char) :=
  chunks.map fun c => (st.handlers.stderr, c)

/-- A JS `Error` as far as the claims observe it: its message string.  The
`Error` constructor sets no numeric exit-code property. -/
structure JsError where
  message : List Char
  deriving DecidableEq

/-- The settled state of the promise returned by `execute`. -/
inductive ExecOutcome where
  | resolved (value : JsVal)
  | rejected (error : JsError)

/-- The terminal child-process event: an `error` event (operating-system
spawn failure, carrying the OS error) or a `close` event carrying the exit
code — a number, or `null` when the process was terminated by a signal. -/
inductive ProcEvent where
  | errorEvent (e : JsError)
  | closeEvent (code : JsVal)

/-- The message of the error built on a truthy exit code:
``rsync exited with code ${code}``. -/
def exitMessage (code : JsVal) : List Char :=
  "rsync exited with code ".data ++ jsToString code

/-- How `execute`'s promise settles on the terminal event: an `error` event
rejects with the OS error; a `close` event with a truthy code rejects with
`new Error(...)`; otherwise the promise resolves with the code itself
(`resolve(code)`). -/
def settleExecute : ProcEvent → ExecOutcome
  | .errorEvent e => .rejected e
  | .closeEvent code =>
    if truthy code then .rejected { message := exitMessage code }
    else .resolved code

/-- Specification-side description of the short group: the dash-stripped
names of length one stored with the absent-value marker, in insertion
order. -/
def shortNames (m : List (List Char × JsVal)) : List (List Char) :=
  (m.filter fun kv => kv.1.length == 1 && isUndefined kv.2).map Prod.fst

/-- Specification-side description of the long tokens: every option not in
the short group renders, in insertion order, into one token — or, for an
array value, one token per element in list order. -/
def longTokens (m : List (List Char × JsVal)) : List (List Char) :=
  m.flatMap fun kv =>
    if kv.1.length == 1 && isUndefined kv.2 then []
    else
      match kv.2 with
      | .arr l => l.map fun v => buildOption kv.1 v
      | _ => [buildOption kv.1 kv.2]

/-- The clustered short-flag token of a state, when any short flag exists. -/
def shortCluster (st : RsyncState) : Option (List Char) :=
  let s := splitOptions st.options
  if s.1.isEmpty then none else some ('-' :: s.1.flatten)

/-! ### Helper lemmas -/

theorem stripLeadingDashes_replicate_append (n : Nat) (s : List Char) :
    stripLeadingDashes (List.replicate n '-' ++ s) = stripLeadingDashes s := by
  induction n with
  | zero => simp
  | succ k ih =>
    simp only [List.replicate_succ, List.cons_append, stripLeadingDashes,
      List.dropWhile_cons] at *
    simp [ih]

theorem lookupAssoc_setAssoc_self (m : List (List Char × JsVal)) (k : List Char)
    (v : JsVal) : lookupAssoc (setAssoc m k v) k = some v := by
  induction m with
  | nil => simp [setAssoc, lookupAssoc]
  | cons kv rest ih =>
    obtain ⟨k', v'⟩ := kv
    by_cases h : k' = k
    · simp [setAssoc, lookupAssoc, h]
    · simp [setAssoc, lookupAssoc, h, ih]

theorem keys_setAssoc (m : List (List Char × JsVal)) (k : List Char) (v : JsVal) :
    (setAssoc m k v).map Prod.fst =
      if k ∈ m.map Prod.fst then m.map Prod.fst else m.map Prod.fst ++ [k] := by
  induction m with
  | nil => simp [setAssoc]
  | cons kv rest ih =>
    obtain ⟨k', v'⟩ := kv
    by_cases h : k' = k
    · subst h
      rw [setAssoc, if_pos rfl,
        if_pos (by rw [List.map_cons]; exact List.mem_cons_self _ _),
        List.map_cons, List.map_cons]
    · rw [setAssoc, if_neg h, List.map_cons, List.map_cons, ih]
      by_cases hm : k ∈ rest.map Prod.fst
      · rw [if_pos hm, if_pos (List.mem_cons_of_mem _ hm)]
      · rw [if_neg hm,
          if_neg (by rw [List.mem_cons]; push_neg; exact ⟨Ne.symm h, hm⟩),
          List.cons_append]

theorem splitOptions_eq (m : List (List Char × JsVal)) :
    splitOptions m = (shortNames m, longTokens m) := by
  induction m with
  | nil => rfl
  | cons kv rest ih =>
    obtain ⟨key, value⟩ := kv
    by_cases h : (key.length == 1 && isUndefined value) = true
    · have h2 : value = .undefined := by
        cases value <;> simp_all [isUndefined]
      subst h2
      simp_all [splitOptions, shortNames, longTokens, List.filter_cons, isUndefined]
    · cases value <;>
        simp_all [splitOptions, shortNames, longTokens, List.filter_cons, isUndefined]

/-! ### Claim theorems -/

/-- C2: `escapeShellArg` returns a string unchanged when it contains none of
the characters double quote, single quote, backtick, backslash, dollar and
space; otherwise it returns the string wrapped in double quotes with each
occurrence of double quote, single quote, backtick, backslash and dollar
prefixed by a backslash (the space is quoted but not prefixed). -/
theorem escapeShellArg_cases (s : List Char) :
    ((∀ c ∈ s, isShellSpecial c = false) → escapeShellArg s = s) ∧
    ((∃ c ∈ s, isShellSpecial c = true) →
      escapeShellArg s =
        '"' :: (s.flatMap fun c => if isEscapedChar c then ['\\', c] else [c]) ++ ['"']) := by
  constructor
  · intro h
    have ha : s.any isShellSpecial = false := by
      rw [List.any_eq_false]
      intro c hc
      simp [h c hc]
    simp [escapeShellArg, ha]
  · intro h
    have ha : s.any isShellSpecial = true := List.any_eq_true.mpr h
    simp [escapeShellArg, ha]

/-- Witness for C2: the plain filename `a_b.txt` passes through unchanged,
while `a b` (a space inside) is wrapped in double quotes. -/
theorem escapeShellArg_cases_witness :
    escapeShellArg "a_b.txt".data = "a_b.txt".data ∧
    escapeShellArg "a b".data =
      '"' :: ("a b".data.flatMap fun c => if isEscapedChar c then ['\\', c] else [c])
        ++ ['"'] :=
  ⟨(escapeShellArg_cases "a_b.txt".data).1 (by decide),
   (escapeShellArg_cases "a b".data).2 (by decide)⟩

/-- C6 (counterexample): for the empty option name with one leading dash
prepended, `unset` does not behave identically: with an entry stored under
the empty stripped key, `unset('-')` deletes it while `unset('')` is a no-op
because the guard tests the truthiness of the raw name. -/
theorem unset_dash_insensitivity_cex :
    (rsUnset (rsSet (mkRsync "rsync".data) [] (.str "x".data)) ['-']).options.length = 0 ∧
    (rsUnset (rsSet (mkRsync "rsync".data) [] (.str "x".data)) []).options.length = 1 :=
  ⟨rfl, rfl⟩

/-- C6 (amended): for every option name and every number of prepended
leading dashes, `set` and `isSet` behave identically on the dashed and the
undashed name; `unset` does so for every nonempty name (for the empty name
the undashed call is a no-op while a dashed call deletes the entry stored
under the empty stripped key). -/
theorem dash_insensitive_ops (n : Nat) (name : List Char) (st : RsyncState) (v : JsVal) :
    rsSet st (List.replicate n '-' ++ name) v = rsSet st name v ∧
    rsIsSet st (List.replicate n '-' ++ name) = rsIsSet st name ∧
    (name ≠ [] → rsUnset st (List.replicate n '-' ++ name) = rsUnset st name) := by
  refine ⟨?_, ?_, ?_⟩
  · simp [rsSet, stripLeadingDashes_replicate_append]
  · simp [rsIsSet, stripLeadingDashes_replicate_append]
  · intro h
    have e := stripLeadingDashes_replicate_append n name
    have h1 : (List.replicate n '-' ++ name).isEmpty = false := by
      cases hn : name with
      | nil => exact absurd hn h
      | cons a as =>
        cases hrep : List.replicate n '-' with
        | nil => simp [hrep]
        | cons b bs => simp [hrep]
    have h2 : name.isEmpty = false := by
      cases hn : name with
      | nil => exact absurd hn h
      | cons a as => rfl
    simp [rsUnset, h1, h2, e]

/-- Witness for C6 (amended): `unset('--progress')` equals
`unset('progress')` on a fresh builder. -/
theorem dash_insensitive_ops_witness :
    ("progress".data ≠ ([] : List Char)) ∧
    rsUnset (mkRsync "rsync".data) "--progress".data =
      rsUnset (mkRsync "rsync".data) "progress".data := by
  refine ⟨by decide, ?_⟩
  have h := (dash_insensitive_ops 2 "progress".data (mkRsync "rsync".data)
    JsVal.undefined).2.2 (by decide)
  have e : List.replicate 2 '-' ++ "progress".data = "--progress".data := by decide
  rw [e] at h
  exact h

/-- C7: `setFlags('a')`, `setFlags('v')`, `setFlags('z')` reach exactly the
state of the single call `setFlags('avz')`, whose clustered token is `-avz`;
in general a first-time key is appended at the end of the options map while
re-assigning an existing key keeps its position, so the cluster lists flags
in first-set order. -/
theorem setFlags_cluster_first_set_order :
    (setFlags (setFlags (setFlags (mkRsync "rsync".data) [.str "a".data])
        [.str "v".data]) [.str "z".data] =
      setFlags (mkRsync "rsync".data) [.str "avz".data] ∧
     shortCluster (setFlags (mkRsync "rsync".data) [.str "avz".data]) =
      some "-avz".data) ∧
    ∀ (m : List (List Char × JsVal)) (k : List Char) (v : JsVal),
      (setAssoc m k v).map Prod.fst =
        if k ∈ m.map Prod.fst then m.map Prod.fst else m.map Prod.fst ++ [k] :=
  ⟨⟨rfl, rfl⟩, keys_setAssoc⟩

/-- C1 (counterexample): a configuration holding exactly one long option
whose value is a two-element list renders two tokens for that single
option, so the vector does not contain one token per long option. -/
theorem args_one_token_per_long_option_cex :
    (rsSet (mkRsync "rsync".data) "chmod".data
      (.arr [.str "D755".data, .str "F644".data])).options.length = 1 ∧
    argsOf (rsSet (mkRsync "rsync".data) "chmod".data
      (.arr [.str "D755".data, .str "F644".data])) =
      ["--chmod=D755".data, "--chmod=F644".data] :=
  ⟨rfl, rfl⟩

/-- C1 (amended): the argument vector is ordered as the clustered short-flag
token (when any single-character valueless option exists), then the
long-option tokens in option-insertion order — one token per long option,
except that a list-valued option contributes one token per list element in
list order —, then one filter token per pattern in insertion order, then the
normalized source tokens in insertion order, then the normalized destination
token; an empty configuration with source `s` and destination `d` assembles
to exactly `rsync s d`. -/
theorem args_global_order (st : RsyncState) :
    argsOf st =
      (if shortNames st.options = [] then []
       else ['-' :: (shortNames st.options).flatten])
        ++ longTokens st.options
        ++ st.patterns.map patternToken
        ++ st.sources.map unixify
        ++ (if st.destination = [] then [] else [unixify st.destination]) ∧
    command (rsDestination (rsSource (mkRsync "rsync".data) "s".data) "d".data) =
      "rsync s d".data := by
  constructor
  · unfold argsOf
    rw [splitOptions_eq]
    by_cases h1 : shortNames st.options = [] <;>
      by_cases h2 : longTokens st.options = [] <;>
      by_cases h3 : st.sources = [] <;>
      by_cases h4 : st.destination = [] <;>
      simp [h1, h2, h3, h4, List.isEmpty_iff]
  · rfl

/-- C3: an option joins the clustered short-flag group iff its stripped name
has length one and it stores the absent-value marker; every other option
renders its own token(s) in insertion order, a list value one token per
element in list order; a nonempty name with a truthy value renders as the
prefixed name, the glue and the value passed through the escaping engine. -/
theorem option_partition_escaping (m : List (List Char × JsVal)) (k : List Char)
    (v : JsVal) (hk : k ≠ []) (hv : truthy v = true) :
    (splitOptions m).1 = shortNames m ∧
    (splitOptions m).2 = longTokens m ∧
    buildOption k v =
      (if k.length == 1 then ['-'] else ['-', '-']) ++ k ++
        (if k.length == 1 then [' '] else ['=']) ++
        escapeShellArg (jsToString v) := by
  refine ⟨by rw [splitOptions_eq], by rw [splitOptions_eq], ?_⟩
  have hke : k.isEmpty = false := by
    cases k with
    | nil => exact absurd rfl hk
    | cons a as => rfl
  simp [buildOption, hke, hv]

/-- Witness for C3: the long option `rsh` with value `ssh` renders as
`--rsh=ssh`. -/
theorem option_partition_escaping_witness :
    ("rsh".data ≠ ([] : List Char) ∧ truthy (JsVal.str "ssh".data) = true) ∧
    buildOption "rsh".data (.str "ssh".data) = "--rsh=ssh".data := by
  refine ⟨⟨by decide, by decide⟩, ?_⟩
  have h := (option_partition_escaping [] "rsh".data (.str "ssh".data)
    (by decide) (by decide)).2.2
  rw [h]
  decide

/-- C8 (counterexample): after `set('progress')` with no value, `option`
returns `undefined` — the very value returned for the never-set name
`random` — so the lookup result does not differ between the two cases. -/
theorem option_lookup_cex :
    rsOption (rsSet (mkRsync "rsync".data) "progress".data .undefined) "progress".data =
      rsOption (mkRsync "rsync".data) "random".data ∧
    rsOption (mkRsync "rsync".data) "random".data = JsVal.undefined :=
  ⟨rfl, rfl⟩

/-- C8 (amended): `option` returns the stored value — which is the
absent-value marker `undefined` for a valueless option — and `undefined`
when the name was never set; the valueless-present case is distinguished
from the never-set case by `isSet`, not by the return value of `option`. -/
theorem option_lookup_spec (st : RsyncState) (name : List Char) (v : JsVal) :
    rsOption (rsSet st name v) name = v ∧
    rsIsSet (rsSet st name v) name = true ∧
    (rsIsSet st name = false → rsOption st name = JsVal.undefined) := by
  refine ⟨?_, ?_, ?_⟩
  · simp [rsOption, rsSet, lookupAssoc_setAssoc_self]
  · simp [rsIsSet, rsSet, lookupAssoc_setAssoc_self]
  · intro h
    have hn : lookupAssoc st.options (stripLeadingDashes name) = none := by
      cases hl : lookupAssoc st.options (stripLeadingDashes name) with
      | none => rfl
      | some x =>
        exfalso
        unfold rsIsSet at h
        rw [hl] at h
        simp at h
    simp [rsOption, hn]

/-- Witness for C8 (amended): `max-size` set to `1009` reads back as `1009`;
the never-set `max-size` on a fresh builder reads back as `undefined`. -/
theorem option_lookup_spec_witness :
    rsOption (rsSet (mkRsync "rsync".data) "max-size".data (.str "1009".data))
      "max-size".data = .str "1009".data ∧
    rsOption (mkRsync "rsync".data) "max-size".data = JsVal.undefined :=
  ⟨(option_lookup_spec (mkRsync "rsync".data) "max-size".data (.str "1009".data)).1,
   (option_lookup_spec (mkRsync "rsync".data) "max-size".data JsVal.undefined).2.2 rfl⟩

/-- C4 (counterexample): a process exit with status 0 resolves the promise
with the exit code 0 itself (`resolve(code)`), not with no payload. -/
theorem execute_resolve_zero_cex :
    settleExecute (.closeEvent (.num 0)) = .resolved (.num 0) ∧
    settleExecute (.closeEvent (.num 0)) ≠ .resolved .undefined := by
  refine ⟨rfl, ?_⟩
  show ExecOutcome.resolved (JsVal.num 0) ≠ ExecOutcome.resolved JsVal.undefined
  intro h
  injection h with h2
  cases h2

/-- C4 (amended): the promise resolves with the exit status 0 as its value
when the process exits with status 0; on a nonzero exit it rejects with an
error whose message carries the numeric exit code; an operating-system spawn
failure rejects with the spawn error itself, to which no exit code is
attached. -/
theorem execute_settle_spec (c : Int) (e : JsError) (h : c ≠ 0) :
    settleExecute (.closeEvent (.num 0)) = .resolved (.num 0) ∧
    settleExecute (.closeEvent (.num c)) =
      .rejected { message := "rsync exited with code ".data ++ (toString c).data } ∧
    settleExecute (.errorEvent e) = .rejected e := by
  refine ⟨rfl, ?_, rfl⟩
  have ht : truthy (.num c) = true := by simp [truthy, h]
  simp [settleExecute, ht, exitMessage, jsToString]

/-- Witness for C4 (amended): exit status 2 rejects with the message
`rsync exited with code 2`. -/
theorem execute_settle_spec_witness :
    ((2 : Int) ≠ 0) ∧
    settleExecute (.closeEvent (.num 2)) =
      .rejected { message := "rsync exited with code 2".data } := by
  refine ⟨by decide, ?_⟩
  have h := (execute_settle_spec 2 { message := [] } (by decide)).2.1
  have e : "rsync exited with code ".data ++ (toString (2 : Int)).data =
      "rsync exited with code 2".data := by decide
  rw [h, e]

/-- C5: evaluated at two distinct registered functions, the registration
assigns the `stdout` parameter to the stderr slot, so every stderr chunk is
delivered to the stdout handler — both after direct registration and after
`execute`'s re-registration — contradicting the documented contract of
`output`. -/
theorem output_stderr_gets_stdout_handler :
    (output (mkRsync "rsync".data) (.fn 1) (.fn 2)).handlers.stderr = .fn 1 ∧
    (output (mkRsync "rsync".data) (.fn 1) (.fn 2)).handlers.stderr ≠ .fn 2 ∧
    stderrDeliveries (output (mkRsync "rsync".data) (.fn 1) (.fn 2)) ["x".data] =
      [(.fn 1, "x".data)] ∧
    (executeRegister (output (mkRsync "rsync".data) (.fn 1) (.fn 2))
      .undefined .undefined).handlers.stderr = .fn 1 := by
  refine ⟨rfl, ?_, rfl, rfl⟩
  show JsVal.fn 1 ≠ JsVal.fn 2
  intro h
  injection h with h2
  exact absurd h2 (by decide)

/-- C9 (counterexample): `execute` invoked with handler options re-registers
the output handlers before spawning, so the builder's configuration is not
left unchanged by a failed run. -/
theorem execute_mutates_handlers_cex :
    (executeRegister (mkRsync "rsync".data) (.fn 3) (.fn 4)).handlers.stdout ≠
      (mkRsync "rsync".data).handlers.stdout := by
  show JsVal.fn 3 ≠ JsVal.fn 0
  intro h
  injection h with h2
  exact absurd h2 (by decide)

/-- C9 (amended): the synchronous effect of `execute` on the builder is the
handler re-registration only: options, patterns, sources, destination and
executable are untouched — also when the run later fails — so the assembled
command afterwards is unchanged; only the registered output handlers may
change. -/
theorem execute_preserves_command (st : RsyncState) (so se : JsVal) :
    (executeRegister st so se).options = st.options ∧
    (executeRegister st so se).patterns = st.patterns ∧
    (executeRegister st so se).sources = st.sources ∧
    (executeRegister st so se).destination = st.destination ∧
    (executeRegister st so se).executable = st.executable ∧
    command (executeRegister st so se) = command st :=
  ⟨rfl, rfl, rfl, rfl, rfl, rfl⟩

/-- C10: a string pattern whose first character is neither `+` nor `-` does
not fail: the first character is stripped and the remainder is appended to
the ordered pattern list as an include entry with action `+`. -/
theorem patterns_unresolved_sign_includes (st : RsyncState) (c : Char) (cs : List Char)
    (_h1 : c ≠ '+') (h2 : c ≠ '-') :
    patternsOne st (.str (c :: cs)) =
      { st with patterns := st.patterns ++ [{ action := '+', pattern := cs }] } := by
  unfold patternsOne
  rw [if_neg (by simp [h2])]
  rfl

/-- Witness for C10: the unsigned pattern `docs` is stored as an include
entry for `ocs`. -/
theorem patterns_unresolved_sign_includes_witness :
    ('d' ≠ '+' ∧ 'd' ≠ '-') ∧
    patternsOne (mkRsync "rsync".data) (.str "docs".data) =
      { mkRsync "rsync".data with
          patterns := [{ action := '+', pattern := "ocs".data }] } := by
  refine ⟨⟨by decide, by decide⟩, ?_⟩
  have h := patterns_unresolved_sign_includes (mkRsync "rsync".data) 'd' "ocs".data
    (by decide) (by decide)
  have e : ('d' :: "ocs".data) = "docs".data := by decide
  rw [e] at h
  rw [h]
  rfl

end NodeRsync
